import Mathlib

/-!
# q2logfetch: a shallow embedding of `main.go`

The program is a sequence of calls into external collaborators (the
ssh_config reader, the SSH library, the local file system, the logger).
Each such call is recorded as an `Event` on a trace, and what the
collaborator answers is supplied by an `Env` of oracles that may depend on
everything that happened before (the current `State`).  The functions of
`main.go` are translated one to one as state-passing functions.
-/

namespace Q2LogFetch

/-! ## Data model -/

/-- Go `[]byte` contents. -/
abbrev Bytes := List UInt8

/-- A Go `error` value that is not nil, identified by its message. -/
abbrev GoError := String

/-- The result of `ssh.ParsePrivateKey`: an `ssh.Signer`. -/
structure Signer where
  keyMaterial : Bytes
  deriving DecidableEq, Repr

/-- The one kind of `ssh.AuthMethod` the program builds: `ssh.PublicKeys(signers...)`. -/
inductive AuthMethod where
  | publicKeys (signers : List Signer)
  deriving DecidableEq, Repr

/-- The one host key callback the program uses. -/
inductive HostKeyCallback where
  | insecureIgnoreHostKey
  deriving DecidableEq, Repr

/-- The fields of `ssh.ClientConfig` that `main` sets. A nil `Auth` slice is `[]`. -/
structure ClientConfig where
  User : String
  Auth : List AuthMethod
  HostKeyCallback : HostKeyCallback
  deriving DecidableEq, Repr

/-- The `SSHConnection` struct of `main.go`. -/
structure SSHConnection where
  Host : String
  Port : String
  Config : ClientConfig
  deriving DecidableEq, Repr

/-- The four command-line flags, after `flag.Parse()`. -/
structure Flags where
  host : String
  logFile : String
  localFile : String
  clear : Bool
  deriving DecidableEq, Repr

/-- One call into an external collaborator, with the arguments it was given. -/
inductive Event where
  | fmtPrintln (args : List String)
  | printDefaults
  | sshConfigGet (hostAlias key : String)
  | userHomeDir
  | readFile (path : String)
  | parsePrivateKey (data : Bytes)
  | dial (network addr : String) (config : ClientConfig)
  | newSession
  | stdoutPipe
  | start (cmd : String)
  | readFrom
  | sessionClose
  | writeFile (path : String) (data : Bytes) (perm : Nat)
  | logPrintln (err : GoError)
  deriving DecidableEq, Repr

/-- The observable state: the calls made so far, in order, and the content of
each local path (`none`: no file there). -/
structure State where
  trace : List Event
  fs : String → Option Bytes

/-- Record one more call. -/
def State.emit (s : State) (e : Event) : State :=
  { s with trace := s.trace ++ [e] }

/-- The file system after the file at `path` got `content`. -/
def State.setFile (s : State) (path : String) (content : Option Bytes) : State :=
  { s with fs := fun p => if p = path then content else s.fs p }

/-- How a failed `os.WriteFile` ends: the error, and what it left at the path
(the file is opened with `O_CREATE|O_TRUNC` before the write). -/
structure WriteFailure where
  err : GoError
  left : Option Bytes

/-- What the outside world answers. Every oracle that can answer differently
from one call to the next takes the state at the time of the call. -/
structure Env where
  /-- `os.Args[0]`. -/
  args0 : String
  /-- `ssh_config.Get(alias, key)`. -/
  sshConfigGet : String → String → String
  /-- `os.UserHomeDir()`. -/
  userHomeDir : State → Except GoError String
  /-- `os.ReadFile(path)`. -/
  readFile : State → String → Except GoError Bytes
  /-- `ssh.ParsePrivateKey(data)`. -/
  parsePrivateKey : Bytes → Except GoError Signer
  /-- `ssh.Dial(network, addr, config)`: `none` is a connection, `some err` a failure. -/
  dial : State → String → String → ClientConfig → Option GoError
  /-- `conn.NewSession()`. -/
  newSession : State → Option GoError
  /-- `session.StdoutPipe()`. -/
  stdoutPipe : State → Option GoError
  /-- `session.Start(cmd)`. -/
  start : State → String → Option GoError
  /-- `buf.ReadFrom(r)`: the bytes that reached the buffer before the stream
  ended, and the error `ReadFrom` reports (nil at end of stream). -/
  readFrom : State → Bytes × Option GoError
  /-- `os.WriteFile(path, data, perm)`: `none` is success. -/
  writeFile : State → String → Bytes → Nat → Option WriteFailure

/-! ## Library functions the program calls on strings -/

/-- Go `len(s)` on a string: its length in bytes. -/
def len (s : String) : Nat := s.utf8ByteSize

/-- Go `strings.HasPrefix(s, pre)`. -/
def stringsHasPrefix (s pre : String) : Bool :=
  pre.data.isPrefixOf s.data

/-- The scan of `strings.Replace` for a non-empty `old`: `skip` counts the
characters of a match that are still to be dropped. -/
def replaceScan (old new : List Char) : Nat → List Char → List Char
  | _, [] => []
  | skip + 1, _ :: cs => replaceScan old new skip cs
  | 0, c :: cs =>
    if old.isPrefixOf (c :: cs) then new ++ replaceScan old new (old.length - 1) cs
    else c :: replaceScan old new 0 cs

/-- Go `strings.ReplaceAll(s, old, new)`: every non-overlapping instance of
`old`, left to right, is replaced by `new`; an empty `old` matches before each
character and at the end. -/
def stringsReplaceAll (s old new : String) : String :=
  if old.data.isEmpty then
    ⟨new.data ++ s.data.flatMap (fun c => c :: new.data)⟩
  else
    ⟨replaceScan old.data new.data 0 s.data⟩

/-! ## The program -/

/-- Lines 66-72 of `privateKeyAuthMethod`: the path that will be read, or
`none` when the function has already returned nil there. -/
def expandKeyfile (env : Env) (keyfile : String) (s : State) : Option String × State :=
  if stringsHasPrefix keyfile "~" then
    match env.userHomeDir s with
    | .error _ => (none, s.emit .userHomeDir)
    | .ok home => (some (stringsReplaceAll keyfile "~" home), s.emit .userHomeDir)
  else
    (some keyfile, s)

/-- The function `privateKeyAuthMethod(keyfile string) []ssh.AuthMethod`. -/
def privateKeyAuthMethod (env : Env) (keyfile : String) (s : State) :
    List AuthMethod × State :=
  match expandKeyfile env keyfile s with
  | (none, s1) => ([], s1)
  | (some path, s1) =>
    let s2 := s1.emit (.readFile path)
    match env.readFile s1 path with
    | .error err => ([], s2.emit (.logPrintln err))
    | .ok data =>
      let s3 := s2.emit (.parsePrivateKey data)
      match env.parsePrivateKey data with
      | .error err => ([], s3.emit (.logPrintln err))
      | .ok privkey => ([.publicKeys [privkey]], s3)

/-- The two results of `runCommand`: `([]byte, error)`, each possibly nil. -/
abbrev CommandResult := Option Bytes × Option GoError

/-- Lines 101-111 of `runCommand`: what runs between `defer session.Close()`
and the deferred call. -/
def runSession (env : Env) (cmd : String) (s : State) : CommandResult × State :=
  let s1 := s.emit .stdoutPipe
  match env.stdoutPipe s with
  | some err => ((none, some err), s1)
  | none =>
    let s2 := s1.emit (.start cmd)
    match env.start s1 cmd with
    | some err => ((none, some err), s2)
    | none =>
      let s3 := s2.emit .readFrom
      (((some (env.readFrom s2).1), none), s3)

/-- The function `runCommand(cmd string, host SSHConnection) ([]byte, error)`. -/
def runCommand (env : Env) (cmd : String) (host : SSHConnection) (s : State) :
    CommandResult × State :=
  let addr := host.Host ++ ":" ++ host.Port
  let s1 := s.emit (.dial "tcp" addr host.Config)
  match env.dial s "tcp" addr host.Config with
  | some err => ((none, some err), s1)
  | none =>
    let s2 := s1.emit .newSession
    match env.newSession s1 with
    | some err => ((none, some err), s2)
    | none =>
      -- defer session.Close()
      let r := runSession env cmd s2
      (r.1, r.2.emit .sessionClose)

/-- The bytes of a Go slice that may be nil. -/
def sliceBytes : Option Bytes → Bytes
  | none => []
  | some b => b

/-- The call `os.WriteFile(path, data, perm)`. -/
def osWriteFile (env : Env) (path : String) (data : Bytes) (perm : Nat) (s : State) :
    Option GoError × State :=
  let s1 := s.emit (.writeFile path data perm)
  match env.writeFile s path data perm with
  | none => (none, s1.setFile path (some data))
  | some f => (some f.err, s1.setFile path f.left)

/-- The function `fetchLog(remoteFile, localFile string, host SSHConnection) error`. -/
def fetchLog (env : Env) (remoteFile localFile : String) (host : SSHConnection)
    (s : State) : Option GoError × State :=
  match runCommand env ("sudo truncate -s 0 " ++ remoteFile) host s with
  | ((_, some err), s1) => (some err, s1)
  | ((output, none), s1) =>
    match osWriteFile env localFile (sliceBytes output) 0o644 s1 with
    | (some err, s2) => (some err, s2)
    | (none, s2) => (none, s2)

/-- Lines 37-47 of `main`: the connection descriptor, and the state after the
lookups and the key load that build it. -/
def buildConnection (env : Env) (flags : Flags) (s : State) : SSHConnection × State :=
  let user := env.sshConfigGet flags.host "user"
  let s1 := s.emit (.sshConfigGet flags.host "user")
  let identityfile := env.sshConfigGet flags.host "identityfile"
  let s2 := s1.emit (.sshConfigGet flags.host "identityfile")
  let auth := privateKeyAuthMethod env identityfile s2
  let config : ClientConfig :=
    { User := user, Auth := auth.1, HostKeyCallback := .insecureIgnoreHostKey }
  let hostname := env.sshConfigGet flags.host "hostname"
  let s3 := auth.2.emit (.sshConfigGet flags.host "hostname")
  let port := env.sshConfigGet flags.host "port"
  let s4 := s3.emit (.sshConfigGet flags.host "port")
  ({ Host := hostname, Port := port, Config := config }, s4)

/-- Lines 49-52 of `main`: the fetch, and the log line when it fails. -/
def fetchStep (env : Env) (flags : Flags) (host : SSHConnection) (s : State) : State :=
  match fetchLog env flags.logFile flags.localFile host s with
  | (some err, s1) => s1.emit (.logPrintln err)
  | (none, s1) => s1

/-- Lines 54-61 of `main`: the clear command when the flag is set. -/
def clearStep (env : Env) (flags : Flags) (host : SSHConnection) (s : State) : State :=
  if flags.clear then
    match runCommand env ("sudo echo \"\" > " ++ flags.logFile) host s with
    | ((_, some err), s1) => s1.emit (.logPrintln err)
    | ((_, none), s1) => s1
  else
    s

/-- The function `main()`, on the flags `flag.Parse()` produced. -/
def main (env : Env) (flags : Flags) (s : State) : State :=
  if len flags.host == 0 || len flags.logFile == 0 || len flags.localFile == 0 then
    (s.emit (.fmtPrintln ["Usage:", env.args0, "<args>"])).emit .printDefaults
  else
    let c := buildConnection env flags s
    clearStep env flags c.1 (fetchStep env flags c.1 c.2)

/-! ## Concrete worlds, used to evaluate the program -/

/-- The state before the program starts: nothing called, no local file. -/
def State.init : State := { trace := [], fs := fun _ => none }

/-- The event of the `ssh.Dial` call `runCommand` makes for `host`. -/
def dialEvent (host : SSHConnection) : Event :=
  .dial "tcp" (host.Host ++ ":" ++ host.Port) host.Config

/-- A world in which everything works: the alias resolves, the key loads, the
server accepts every step, and the command's output is `out`. -/
def goodEnv (out : Bytes) : Env where
  args0 := "q2logfetch"
  sshConfigGet := fun _ key =>
    if key = "user" then "ops"
    else if key = "hostname" then "10.0.0.5"
    else if key = "port" then "22"
    else if key = "identityfile" then "~/.ssh/id_ed25519"
    else ""
  userHomeDir := fun _ => .ok "/home/ops"
  readFile := fun _ _ => .ok [1, 2, 3]
  parsePrivateKey := fun data => .ok ⟨data⟩
  dial := fun _ _ _ _ => none
  newSession := fun _ => none
  stdoutPipe := fun _ => none
  start := fun _ _ => none
  readFrom := fun _ => (out, none)
  writeFile := fun _ _ _ _ => none

/-- The good world, except that the server refuses the connection. -/
def dialFailsEnv : Env :=
  { goodEnv [] with dial := fun _ _ _ _ => some "dial tcp 10.0.0.5:22: connection refused" }

/-- The good world, except that no session can be opened. -/
def sessionFailsEnv : Env :=
  { goodEnv [] with newSession := fun _ => some "ssh: rejected: administratively prohibited" }

/-- The good world, except that the stdout pipe cannot be set up. -/
def pipeFailsEnv : Env :=
  { goodEnv [] with stdoutPipe := fun _ => some "ssh: Stdout already set" }

/-- The good world, except that the command cannot be started. -/
def startFailsEnv : Env :=
  { goodEnv [] with start := fun _ _ => some "ssh: command start failed" }

/-- The good world, except that the home directory cannot be resolved. -/
def homeFailsEnv : Env :=
  { goodEnv [] with userHomeDir := fun _ => .error "$HOME is not defined" }

/-- The good world, except that the key file cannot be read. -/
def readFailsEnv : Env :=
  { goodEnv [] with readFile := fun _ _ => .error "open: no such file or directory" }

/-- The good world, except that the key bytes do not parse. -/
def parseFailsEnv : Env :=
  { goodEnv [] with parsePrivateKey := fun _ => .error "ssh: no key found" }

/-- A connection descriptor for the examples. -/
def demoHost : SSHConnection :=
  { Host := "10.0.0.5", Port := "22",
    Config := { User := "ops", Auth := [], HostKeyCallback := .insecureIgnoreHostKey } }

/-- A world in which the command prints `first` the first time it runs and
`second` afterwards (the first run reads stdout after four earlier calls). -/
def twoOutputsEnv (first second : Bytes) : Env :=
  { goodEnv [] with
    readFrom := fun st => if st.trace.length < 6 then (first, none) else (second, none) }

/-- A state with two local files already there. -/
def demoState : State :=
  { trace := [],
    fs := fun p =>
      if p = "./out.log" then some [9, 9, 9]
      else if p = "./notes.txt" then some [7]
      else none }

/-- The statement `if err != nil { log.Println(err) }`. -/
def logIfError : Option GoError → State → State
  | some err, s => s.emit (.logPrintln err)
  | none, s => s

/-- Whether an event is an `ssh.Dial` call. -/
def Event.isDial : Event → Bool
  | .dial _ _ _ => true
  | _ => false

/-! ## Basic facts about the state -/

@[simp] theorem State.emit_trace (s : State) (e : Event) :
    (s.emit e).trace = s.trace ++ [e] := rfl

@[simp] theorem State.emit_fs (s : State) (e : Event) : (s.emit e).fs = s.fs := rfl

@[simp] theorem State.setFile_trace (s : State) (p : String) (c : Option Bytes) :
    (s.setFile p c).trace = s.trace := rfl

@[simp] theorem State.setFile_fs_same (s : State) (p : String) (c : Option Bytes) :
    (s.setFile p c).fs p = c := by
  simp [State.setFile]

theorem State.setFile_fs_other (s : State) (p q : String) (c : Option Bytes) (h : q ≠ p) :
    (s.setFile p c).fs q = s.fs q := by
  simp [State.setFile, h]

/-- The session body never closes the session itself, only appends to the
trace and leaves the local files alone. -/
theorem runSession_trace (env : Env) (cmd : String) (s : State) :
    ∃ t, (runSession env cmd s).2.trace = s.trace ++ t ∧ t.count .sessionClose = 0 ∧
      (runSession env cmd s).2.fs = s.fs := by
  cases hp : env.stdoutPipe s with
  | some err =>
    exact ⟨[.stdoutPipe], by simp [runSession, hp], by decide, by simp [runSession, hp]⟩
  | none =>
    cases hs : env.start (s.emit .stdoutPipe) cmd with
    | some err =>
      exact ⟨[.stdoutPipe, .start cmd], by simp [runSession, hp, hs],
        by simp [List.count_cons], by simp [runSession, hp, hs]⟩
    | none =>
      exact ⟨[.stdoutPipe, .start cmd, .readFrom], by simp [runSession, hp, hs],
        by simp [List.count_cons], by simp [runSession, hp, hs]⟩

/-- The first thing `runCommand` does is dial, and it leaves local files alone. -/
theorem runCommand_trace (env : Env) (cmd : String) (host : SSHConnection) (s : State) :
    ∃ t, (runCommand env cmd host s).2.trace = s.trace ++ dialEvent host :: t ∧
      (runCommand env cmd host s).2.fs = s.fs := by
  cases hd : env.dial s "tcp" (host.Host ++ ":" ++ host.Port) host.Config with
  | some err => exact ⟨[], by simp [runCommand, dialEvent, hd], by simp [runCommand, hd]⟩
  | none =>
    cases hn : env.newSession
        (s.emit (.dial "tcp" (host.Host ++ ":" ++ host.Port) host.Config)) with
    | some err =>
      exact ⟨[.newSession], by simp [runCommand, dialEvent, hd, hn],
        by simp [runCommand, hd, hn]⟩
    | none =>
      obtain ⟨t, ht, _, hfs⟩ := runSession_trace env cmd
        ((s.emit (.dial "tcp" (host.Host ++ ":" ++ host.Port) host.Config)).emit .newSession)
      refine ⟨.newSession :: (t ++ [.sessionClose]), ?_, ?_⟩
      · simp [runCommand, hd, hn, ht, dialEvent]
      · simp [runCommand, hd, hn, hfs]

/-! ## RemoteExecutor: `runCommand` -/

/-- C7: when the dial fails, or the session cannot be created, or the command
cannot be started, `runCommand` returns that error with nil output, and the
calls it made stop there: nothing after the failed dial, no stdout pipe or
start after the failed `NewSession`, and after a failed `Start` only the
deferred close of the session, no read of stdout. -/
theorem runCommand_failure (env : Env) (cmd : String) (host : SSHConnection) (s : State) :
    (∀ err, env.dial s "tcp" (host.Host ++ ":" ++ host.Port) host.Config = some err →
      (runCommand env cmd host s).1 = (none, some err) ∧
      (runCommand env cmd host s).2.trace = s.trace ++ [dialEvent host]) ∧
    (∀ err, env.dial s "tcp" (host.Host ++ ":" ++ host.Port) host.Config = none →
      env.newSession (s.emit (dialEvent host)) = some err →
      (runCommand env cmd host s).1 = (none, some err) ∧
      (runCommand env cmd host s).2.trace = s.trace ++ [dialEvent host, .newSession]) ∧
    (∀ err, env.dial s "tcp" (host.Host ++ ":" ++ host.Port) host.Config = none →
      env.newSession (s.emit (dialEvent host)) = none →
      env.stdoutPipe ((s.emit (dialEvent host)).emit .newSession) = none →
      env.start (((s.emit (dialEvent host)).emit .newSession).emit .stdoutPipe) cmd
        = some err →
      (runCommand env cmd host s).1 = (none, some err) ∧
      (runCommand env cmd host s).2.trace =
        s.trace ++ [dialEvent host, .newSession, .stdoutPipe, .start cmd, .sessionClose]) := by
  refine ⟨?_, ?_, ?_⟩
  · intro err hd
    simp [runCommand, dialEvent, hd]
  · intro err hd hn
    simp only [dialEvent] at hn
    simp [runCommand, dialEvent, hd, hn]
  · intro err hd hn hp hs
    simp only [dialEvent] at hn hp hs
    simp [runCommand, runSession, dialEvent, hd, hn, hp, hs]

/-- C7 at concrete worlds: a refused dial, a rejected session, a command that
does not start. -/
theorem runCommand_failure_witness :
    (dialFailsEnv.dial State.init "tcp" "10.0.0.5:22" demoHost.Config
        = some "dial tcp 10.0.0.5:22: connection refused" ∧
      (runCommand dialFailsEnv "uptime" demoHost State.init).1
        = (none, some "dial tcp 10.0.0.5:22: connection refused") ∧
      (runCommand dialFailsEnv "uptime" demoHost State.init).2.trace = [dialEvent demoHost]) ∧
    (sessionFailsEnv.newSession (State.init.emit (dialEvent demoHost))
        = some "ssh: rejected: administratively prohibited" ∧
      (runCommand sessionFailsEnv "uptime" demoHost State.init).1
        = (none, some "ssh: rejected: administratively prohibited") ∧
      (runCommand sessionFailsEnv "uptime" demoHost State.init).2.trace
        = [dialEvent demoHost, .newSession]) ∧
    (startFailsEnv.start
        (((State.init.emit (dialEvent demoHost)).emit .newSession).emit .stdoutPipe) "uptime"
        = some "ssh: command start failed" ∧
      (runCommand startFailsEnv "uptime" demoHost State.init).1
        = (none, some "ssh: command start failed") ∧
      (runCommand startFailsEnv "uptime" demoHost State.init).2.trace
        = [dialEvent demoHost, .newSession, .stdoutPipe, .start "uptime", .sessionClose]) :=
  ⟨⟨rfl, (runCommand_failure dialFailsEnv "uptime" demoHost State.init).1 _ rfl⟩,
   ⟨rfl, (runCommand_failure sessionFailsEnv "uptime" demoHost State.init).2.1 _ rfl rfl⟩,
   ⟨rfl, (runCommand_failure startFailsEnv "uptime" demoHost State.init).2.2 _ rfl rfl rfl rfl⟩⟩

/-- C8: among the calls one `runCommand` makes, the session is closed exactly
once when a session was opened (the dial and `NewSession` both succeeded),
whatever happens afterwards (stdout pipe failure, start failure, success), and
never when no session was opened. -/
theorem runCommand_session_close (env : Env) (cmd : String) (host : SSHConnection)
    (s : State) :
    ∃ t, (runCommand env cmd host s).2.trace = s.trace ++ t ∧
      t.count .sessionClose =
        if env.dial s "tcp" (host.Host ++ ":" ++ host.Port) host.Config = none ∧
            env.newSession (s.emit (dialEvent host)) = none
        then 1 else 0 := by
  cases hd : env.dial s "tcp" (host.Host ++ ":" ++ host.Port) host.Config with
  | some err =>
    exact ⟨[dialEvent host], by simp [runCommand, dialEvent, hd], by simp [dialEvent]⟩
  | none =>
    cases hn : env.newSession (s.emit (dialEvent host)) with
    | some err =>
      simp only [dialEvent] at hn
      exact ⟨[dialEvent host, .newSession], by simp [runCommand, dialEvent, hd, hn],
        by simp [dialEvent, List.count_cons]⟩
    | none =>
      obtain ⟨t, ht, hc, _⟩ := runSession_trace env cmd ((s.emit (dialEvent host)).emit .newSession)
      simp only [dialEvent] at hn ht
      refine ⟨dialEvent host :: .newSession :: (t ++ [.sessionClose]), ?_, ?_⟩
      · simp [runCommand, hd, hn, ht, dialEvent]
      · simp [dialEvent, List.count_cons, hc]

/-- The exit paths of `runCommand` evaluated: the session is closed once after
a failed stdout pipe, a failed start and a successful read, and not at all
after a failed dial or a failed `NewSession`. -/
theorem runCommand_close_examples :
    (runCommand pipeFailsEnv "uptime" demoHost State.init).2.trace
      = [dialEvent demoHost, .newSession, .stdoutPipe, .sessionClose] ∧
    (runCommand startFailsEnv "uptime" demoHost State.init).2.trace
      = [dialEvent demoHost, .newSession, .stdoutPipe, .start "uptime", .sessionClose] ∧
    (runCommand (goodEnv []) "uptime" demoHost State.init).2.trace
      = [dialEvent demoHost, .newSession, .stdoutPipe, .start "uptime", .readFrom,
          .sessionClose] ∧
    (runCommand dialFailsEnv "uptime" demoHost State.init).2.trace = [dialEvent demoHost] ∧
    (runCommand sessionFailsEnv "uptime" demoHost State.init).2.trace
      = [dialEvent demoHost, .newSession] := by
  refine ⟨?_, ?_, ?_, ?_, ?_⟩ <;> decide

/-- C9: when the dial, the session, the stdout pipe and the start all succeed,
`runCommand` returns a nil error and exactly the bytes `ReadFrom` read from
the command's standard output until the stream ended (what `ReadFrom` itself
reports is discarded); when those are zero bytes the result is a zero-length
slice with a nil error. -/
theorem runCommand_success (env : Env) (cmd : String) (host : SSHConnection) (s : State)
    (hd : env.dial s "tcp" (host.Host ++ ":" ++ host.Port) host.Config = none)
    (hn : env.newSession (s.emit (dialEvent host)) = none)
    (hp : env.stdoutPipe ((s.emit (dialEvent host)).emit .newSession) = none)
    (hs : env.start (((s.emit (dialEvent host)).emit .newSession).emit .stdoutPipe) cmd = none) :
    (runCommand env cmd host s).1 =
      (some (env.readFrom
        ((((s.emit (dialEvent host)).emit .newSession).emit .stdoutPipe).emit (.start cmd))).1,
       none) ∧
    ((env.readFrom
        ((((s.emit (dialEvent host)).emit .newSession).emit .stdoutPipe).emit (.start cmd))).1
        = [] →
      ∃ out, (runCommand env cmd host s).1 = (some out, none) ∧ out.length = 0) := by
  simp only [dialEvent] at hn hp hs
  have h : (runCommand env cmd host s).1 =
      (some (env.readFrom
        ((((s.emit (dialEvent host)).emit .newSession).emit .stdoutPipe).emit (.start cmd))).1,
       none) := by
    simp [runCommand, runSession, dialEvent, hd, hn, hp, hs]
  refine ⟨h, fun h0 => ⟨[], ?_, rfl⟩⟩
  rw [h, h0]

/-- C9 at concrete worlds: a command that prints two bytes, and one that
prints nothing. -/
theorem runCommand_success_witness :
    (runCommand (goodEnv [104, 105]) "uptime" demoHost State.init).1 = (some [104, 105], none) ∧
    ∃ out, (runCommand (goodEnv []) "sudo truncate -s 0 /tmp/x.log" demoHost State.init).1
      = (some out, none) ∧ out.length = 0 :=
  ⟨(runCommand_success (goodEnv [104, 105]) "uptime" demoHost State.init rfl rfl rfl rfl).1,
   (runCommand_success (goodEnv []) "sudo truncate -s 0 /tmp/x.log" demoHost State.init
      rfl rfl rfl rfl).2 rfl⟩

/-! ## LogFetcher: `fetchLog` -/

/-- The calls one `runCommand` makes after its dial: one of five sequences. -/
theorem runCommand_emitted (env : Env) (cmd : String) (host : SSHConnection) (s : State) :
    ∃ t, (runCommand env cmd host s).2.trace = s.trace ++ dialEvent host :: t ∧
      (t = [] ∨ t = [.newSession] ∨ t = [.newSession, .stdoutPipe, .sessionClose] ∨
        t = [.newSession, .stdoutPipe, .start cmd, .sessionClose] ∨
        t = [.newSession, .stdoutPipe, .start cmd, .readFrom, .sessionClose]) := by
  cases hd : env.dial s "tcp" (host.Host ++ ":" ++ host.Port) host.Config with
  | some err => exact ⟨[], by simp [runCommand, dialEvent, hd], by simp⟩
  | none =>
    cases hn : env.newSession
        (s.emit (.dial "tcp" (host.Host ++ ":" ++ host.Port) host.Config)) with
    | some err => exact ⟨[.newSession], by simp [runCommand, dialEvent, hd, hn], by simp⟩
    | none =>
      cases hp : env.stdoutPipe
          ((s.emit (.dial "tcp" (host.Host ++ ":" ++ host.Port) host.Config)).emit
            .newSession) with
      | some err =>
        exact ⟨[.newSession, .stdoutPipe, .sessionClose],
          by simp [runCommand, runSession, dialEvent, hd, hn, hp], by simp⟩
      | none =>
        cases hs : env.start
            (((s.emit (.dial "tcp" (host.Host ++ ":" ++ host.Port) host.Config)).emit
              .newSession).emit .stdoutPipe) cmd with
        | some err =>
          exact ⟨[.newSession, .stdoutPipe, .start cmd, .sessionClose],
            by simp [runCommand, runSession, dialEvent, hd, hn, hp, hs], by simp⟩
        | none =>
          exact ⟨[.newSession, .stdoutPipe, .start cmd, .readFrom, .sessionClose],
            by simp [runCommand, runSession, dialEvent, hd, hn, hp, hs], by simp⟩

/-- What `fetchLog` does after its `runCommand` returned an error: nothing. -/
theorem fetchLog_of_command_error (env : Env) (r l : String) (h : SSHConnection) (s : State)
    (out : Option Bytes) (err : GoError)
    (hrc : (runCommand env ("sudo truncate -s 0 " ++ r) h s).1 = (out, some err)) :
    fetchLog env r l h s = (some err, (runCommand env ("sudo truncate -s 0 " ++ r) h s).2) := by
  unfold fetchLog
  generalize runCommand env ("sudo truncate -s 0 " ++ r) h s = rc at hrc
  obtain ⟨⟨o, e⟩, s1⟩ := rc
  simp only [Prod.mk.injEq] at hrc
  obtain ⟨rfl, rfl⟩ := hrc
  rfl

/-- What `fetchLog` does after its `runCommand` returned without error: one
`os.WriteFile` of the returned bytes. -/
theorem fetchLog_of_command_ok (env : Env) (r l : String) (h : SSHConnection) (s : State)
    (out : Option Bytes)
    (hrc : (runCommand env ("sudo truncate -s 0 " ++ r) h s).1 = (out, none)) :
    fetchLog env r l h s =
      osWriteFile env l (sliceBytes out) 0o644
        (runCommand env ("sudo truncate -s 0 " ++ r) h s).2 := by
  unfold fetchLog
  generalize runCommand env ("sudo truncate -s 0 " ++ r) h s = rc at hrc
  obtain ⟨⟨o, e⟩, s1⟩ := rc
  simp only [Prod.mk.injEq] at hrc
  obtain ⟨rfl, rfl⟩ := hrc
  simp only []
  generalize osWriteFile env l (sliceBytes o) 0o644 s1 = w
  obtain ⟨_ | e, s2⟩ := w <;> rfl

/-- C2: the calls `fetchLog r l h` makes are those of one
`runCommand ("sudo truncate -s 0 " ++ r) h` (one dial, to `h`, and no command
started other than that string, `r` appended as it is), followed, when that
command returned no error, by one `os.WriteFile` of exactly the returned bytes
to `l` with mode 0644, and by nothing when it returned an error. -/
theorem fetchLog_one_command (env : Env) (r l : String) (h : SSHConnection) (s : State) :
    (∀ out, (runCommand env ("sudo truncate -s 0 " ++ r) h s).1 = (out, none) →
      (fetchLog env r l h s).2.trace =
        (runCommand env ("sudo truncate -s 0 " ++ r) h s).2.trace ++
          [.writeFile l (sliceBytes out) 0o644]) ∧
    (∀ out err, (runCommand env ("sudo truncate -s 0 " ++ r) h s).1 = (out, some err) →
      (fetchLog env r l h s).2.trace =
        (runCommand env ("sudo truncate -s 0 " ++ r) h s).2.trace) ∧
    (∃ t, (fetchLog env r l h s).2.trace = s.trace ++ dialEvent h :: t ∧
      (dialEvent h :: t).countP Event.isDial = 1 ∧
      ∀ c, Event.start c ∈ t → c = "sudo truncate -s 0 " ++ r) := by
  have hok : ∀ out, (runCommand env ("sudo truncate -s 0 " ++ r) h s).1 = (out, none) →
      (fetchLog env r l h s).2.trace =
        (runCommand env ("sudo truncate -s 0 " ++ r) h s).2.trace ++
          [.writeFile l (sliceBytes out) 0o644] := by
    intro out hrc
    rw [fetchLog_of_command_ok env r l h s out hrc]
    unfold osWriteFile
    cases env.writeFile (runCommand env ("sudo truncate -s 0 " ++ r) h s).2 l
      (sliceBytes out) 0o644 <;> simp
  have herr : ∀ out err, (runCommand env ("sudo truncate -s 0 " ++ r) h s).1 = (out, some err) →
      (fetchLog env r l h s).2.trace =
        (runCommand env ("sudo truncate -s 0 " ++ r) h s).2.trace := by
    intro out err hrc
    rw [fetchLog_of_command_error env r l h s out err hrc]
  refine ⟨hok, herr, ?_⟩
  obtain ⟨t, ht, hshape⟩ := runCommand_emitted env ("sudo truncate -s 0 " ++ r) h s
  rcases hres : (runCommand env ("sudo truncate -s 0 " ++ r) h s).1 with ⟨out, _ | err⟩
  · refine ⟨t ++ [.writeFile l (sliceBytes out) 0o644], ?_, ?_, ?_⟩
    · rw [hok out hres, ht]; simp
    · rcases hshape with rfl | rfl | rfl | rfl | rfl <;>
        simp [dialEvent, Event.isDial, List.countP_cons]
    · intro c hc
      rcases hshape with rfl | rfl | rfl | rfl | rfl <;> simp at hc <;> exact hc
  · refine ⟨t, ?_, ?_, ?_⟩
    · rw [herr out err hres, ht]
    · rcases hshape with rfl | rfl | rfl | rfl | rfl <;>
        simp [dialEvent, Event.isDial, List.countP_cons]
    · intro c hc
      rcases hshape with rfl | rfl | rfl | rfl | rfl <;> simp at hc <;> exact hc

/-- C2 at concrete worlds: a fetch that succeeds and one whose dial fails. -/
theorem fetchLog_one_command_witness :
    (fetchLog (goodEnv [104, 105]) "/tmp/x.log" "./out.log" demoHost State.init).2.trace =
      [dialEvent demoHost, .newSession, .stdoutPipe, .start "sudo truncate -s 0 /tmp/x.log",
        .readFrom, .sessionClose, .writeFile "./out.log" [104, 105] 420] ∧
    (fetchLog dialFailsEnv "/tmp/x.log" "./out.log" demoHost State.init).2.trace =
      [dialEvent demoHost] :=
  ⟨(fetchLog_one_command (goodEnv [104, 105]) "/tmp/x.log" "./out.log" demoHost
      State.init).1 (some [104, 105]) rfl,
   (fetchLog_one_command dialFailsEnv "/tmp/x.log" "./out.log" demoHost
      State.init).2.1 none "dial tcp 10.0.0.5:22: connection refused" rfl⟩

/-- A `fetchLog` that returns nil ran its command without error and then
wrote the returned bytes: the state it leaves is the command's state with the
write recorded and the local path holding those bytes. -/
theorem fetchLog_success (env : Env) (r l : String) (h : SSHConnection) (s : State)
    (hok : (fetchLog env r l h s).1 = none) :
    ∃ out, (runCommand env ("sudo truncate -s 0 " ++ r) h s).1 = (out, none) ∧
      (fetchLog env r l h s).2 =
        (((runCommand env ("sudo truncate -s 0 " ++ r) h s).2.emit
          (.writeFile l (sliceBytes out) 0o644)).setFile l (some (sliceBytes out))) := by
  rcases hres : (runCommand env ("sudo truncate -s 0 " ++ r) h s).1 with ⟨out, _ | err⟩
  · refine ⟨out, rfl, ?_⟩
    rw [fetchLog_of_command_ok env r l h s out hres] at hok ⊢
    unfold osWriteFile at hok ⊢
    cases hw : env.writeFile (runCommand env ("sudo truncate -s 0 " ++ r) h s).2 l
      (sliceBytes out) 0o644 with
    | none => rfl
    | some f => simp [hw] at hok
  · rw [fetchLog_of_command_error env r l h s out err hres] at hok
    simp at hok

/-- C3: after a `fetchLog` that returned nil, the local path holds exactly the
bytes its command returned, whatever it held before, and every other path
holds what it held before; after two such calls on the same local path, the
path holds the second call's bytes alone and every other path is unchanged. -/
theorem fetchLog_overwrites (env : Env) (r l : String) (h : SSHConnection) (s : State) :
    ((fetchLog env r l h s).1 = none →
      ∃ out, (runCommand env ("sudo truncate -s 0 " ++ r) h s).1 = (out, none) ∧
        (fetchLog env r l h s).2.fs l = some (sliceBytes out) ∧
        ∀ p, p ≠ l → (fetchLog env r l h s).2.fs p = s.fs p) ∧
    (∀ r2 h2, (fetchLog env r l h s).1 = none →
      (fetchLog env r2 l h2 (fetchLog env r l h s).2).1 = none →
      ∃ out2, (runCommand env ("sudo truncate -s 0 " ++ r2) h2
            (fetchLog env r l h s).2).1 = (out2, none) ∧
        (fetchLog env r2 l h2 (fetchLog env r l h s).2).2.fs l = some (sliceBytes out2) ∧
        ∀ p, p ≠ l → (fetchLog env r2 l h2 (fetchLog env r l h s).2).2.fs p = s.fs p) := by
  have one : ∀ (r : String) (h : SSHConnection) (s : State), (fetchLog env r l h s).1 = none →
      ∃ out, (runCommand env ("sudo truncate -s 0 " ++ r) h s).1 = (out, none) ∧
        (fetchLog env r l h s).2.fs l = some (sliceBytes out) ∧
        ∀ p, p ≠ l → (fetchLog env r l h s).2.fs p = s.fs p := by
    intro r h s hok
    obtain ⟨out, hout, hst⟩ := fetchLog_success env r l h s hok
    obtain ⟨_, _, hfs⟩ := runCommand_trace env ("sudo truncate -s 0 " ++ r) h s
    refine ⟨out, hout, ?_, ?_⟩
    · rw [hst]; simp
    · intro p hp
      rw [hst, State.setFile_fs_other _ _ _ _ hp]
      simp [hfs]
  refine ⟨one r h s, ?_⟩
  intro r2 h2 hok1 hok2
  obtain ⟨_, _, _, hother1⟩ := one r h s hok1
  obtain ⟨out2, hout2, hl2, hother2⟩ := one r2 h2 (fetchLog env r l h s).2 hok2
  exact ⟨out2, hout2, hl2, fun p hp => by rw [hother2 p hp, hother1 p hp]⟩

/-- C3 at a concrete world: the local file held three bytes, the first fetch
returns two bytes and the second one byte. -/
theorem fetchLog_overwrites_witness :
    ((fetchLog (twoOutputsEnv [1, 2] [3]) "/tmp/x.log" "./out.log" demoHost demoState).1 = none ∧
      ∃ out, (runCommand (twoOutputsEnv [1, 2] [3]) ("sudo truncate -s 0 " ++ "/tmp/x.log")
            demoHost demoState).1 = (out, none) ∧
        (fetchLog (twoOutputsEnv [1, 2] [3]) "/tmp/x.log" "./out.log" demoHost demoState).2.fs
            "./out.log" = some (sliceBytes out) ∧
        ∀ p, p ≠ "./out.log" →
          (fetchLog (twoOutputsEnv [1, 2] [3]) "/tmp/x.log" "./out.log" demoHost demoState).2.fs p
            = demoState.fs p) ∧
    ((fetchLog (twoOutputsEnv [1, 2] [3]) "/tmp/x.log" "./out.log" demoHost
        (fetchLog (twoOutputsEnv [1, 2] [3]) "/tmp/x.log" "./out.log" demoHost demoState).2).1
        = none ∧
      ∃ out2, (runCommand (twoOutputsEnv [1, 2] [3]) ("sudo truncate -s 0 " ++ "/tmp/x.log")
            demoHost
            (fetchLog (twoOutputsEnv [1, 2] [3]) "/tmp/x.log" "./out.log" demoHost
              demoState).2).1 = (out2, none) ∧
        (fetchLog (twoOutputsEnv [1, 2] [3]) "/tmp/x.log" "./out.log" demoHost
          (fetchLog (twoOutputsEnv [1, 2] [3]) "/tmp/x.log" "./out.log" demoHost
            demoState).2).2.fs "./out.log" = some (sliceBytes out2) ∧
        ∀ p, p ≠ "./out.log" →
          (fetchLog (twoOutputsEnv [1, 2] [3]) "/tmp/x.log" "./out.log" demoHost
            (fetchLog (twoOutputsEnv [1, 2] [3]) "/tmp/x.log" "./out.log" demoHost
              demoState).2).2.fs p = demoState.fs p) :=
  ⟨⟨rfl, (fetchLog_overwrites (twoOutputsEnv [1, 2] [3]) "/tmp/x.log" "./out.log" demoHost
      demoState).1 rfl⟩,
   ⟨rfl, (fetchLog_overwrites (twoOutputsEnv [1, 2] [3]) "/tmp/x.log" "./out.log" demoHost
      demoState).2 "/tmp/x.log" demoHost rfl rfl⟩⟩

/-- The two fetches of the example evaluated: the file holds `[1, 2]` after
the first and `[3]`, not `[1, 2, 3]`, after the second; the other file keeps
its content. -/
theorem fetchLog_twice_example :
    (fetchLog (twoOutputsEnv [1, 2] [3]) "/tmp/x.log" "./out.log" demoHost demoState).2.fs
        "./out.log" = some [1, 2] ∧
    (fetchLog (twoOutputsEnv [1, 2] [3]) "/tmp/x.log" "./out.log" demoHost
      (fetchLog (twoOutputsEnv [1, 2] [3]) "/tmp/x.log" "./out.log" demoHost
        demoState).2).2.fs "./out.log" = some [3] ∧
    (fetchLog (twoOutputsEnv [1, 2] [3]) "/tmp/x.log" "./out.log" demoHost
      (fetchLog (twoOutputsEnv [1, 2] [3]) "/tmp/x.log" "./out.log" demoHost
        demoState).2).2.fs "./notes.txt" = some [7] := by
  refine ⟨?_, ?_, ?_⟩ <;> decide

/-! ## KeyLoader: `privateKeyAuthMethod` -/

/-- The function after a home directory that could not be resolved. -/
theorem privateKeyAuthMethod_of_no_home (env : Env) (p : String) (s : State)
    (h : (expandKeyfile env p s).1 = none) :
    privateKeyAuthMethod env p s = ([], (expandKeyfile env p s).2) := by
  unfold privateKeyAuthMethod
  generalize expandKeyfile env p s = e at h
  obtain ⟨o, s1⟩ := e
  simp only at h
  subst h
  rfl

/-- The function after a key file that could not be read. -/
theorem privateKeyAuthMethod_of_read_error (env : Env) (p : String) (s : State)
    (path : String) (err : GoError) (h : (expandKeyfile env p s).1 = some path)
    (hr : env.readFile (expandKeyfile env p s).2 path = .error err) :
    privateKeyAuthMethod env p s =
      ([], ((expandKeyfile env p s).2.emit (.readFile path)).emit (.logPrintln err)) := by
  unfold privateKeyAuthMethod
  generalize expandKeyfile env p s = e at h hr
  obtain ⟨o, s1⟩ := e
  simp only at h hr
  subst h
  simp only [hr]

/-- The function after key bytes that could not be parsed. -/
theorem privateKeyAuthMethod_of_parse_error (env : Env) (p : String) (s : State)
    (path : String) (data : Bytes) (err : GoError)
    (h : (expandKeyfile env p s).1 = some path)
    (hr : env.readFile (expandKeyfile env p s).2 path = .ok data)
    (hp : env.parsePrivateKey data = .error err) :
    privateKeyAuthMethod env p s =
      ([], (((expandKeyfile env p s).2.emit (.readFile path)).emit
        (.parsePrivateKey data)).emit (.logPrintln err)) := by
  unfold privateKeyAuthMethod
  generalize expandKeyfile env p s = e at h hr
  obtain ⟨o, s1⟩ := e
  simp only at h hr
  subst h
  simp only [hr, hp]

/-- The function after a key that was read and parsed. -/
theorem privateKeyAuthMethod_of_key (env : Env) (p : String) (s : State)
    (path : String) (data : Bytes) (key : Signer)
    (h : (expandKeyfile env p s).1 = some path)
    (hr : env.readFile (expandKeyfile env p s).2 path = .ok data)
    (hp : env.parsePrivateKey data = .ok key) :
    privateKeyAuthMethod env p s =
      ([.publicKeys [key]], ((expandKeyfile env p s).2.emit (.readFile path)).emit
        (.parsePrivateKey data)) := by
  unfold privateKeyAuthMethod
  generalize expandKeyfile env p s = e at h hr
  obtain ⟨o, s1⟩ := e
  simp only at h hr
  subst h
  simp only [hr, hp]

/-- The home directory lookup fails the expansion exactly for a path that
starts with `~` when `os.UserHomeDir` returns an error. -/
theorem expandKeyfile_eq_none (env : Env) (p : String) (s : State) :
    (expandKeyfile env p s).1 = none ↔
      stringsHasPrefix p "~" = true ∧ ∃ err, env.userHomeDir s = .error err := by
  unfold expandKeyfile
  cases hpre : stringsHasPrefix p "~" with
  | false => simp
  | true =>
    cases hh : env.userHomeDir s with
    | error e => simp
    | ok home => simp

/-- C6: `privateKeyAuthMethod` is a total function whose result is either no
authentication method or exactly one `PublicKeys` method. It returns none when
the home directory of a `~` path cannot be resolved, when the file cannot be
read, and when the bytes do not parse; it returns the one method built from
the parsed key exactly when the path resolved, the read succeeded and the
parse succeeded. -/
theorem privateKeyAuthMethod_result (env : Env) (p : String) (s : State) :
    ((privateKeyAuthMethod env p s).1 = [] ∨
      ∃ key, (privateKeyAuthMethod env p s).1 = [.publicKeys [key]]) ∧
    (stringsHasPrefix p "~" = true → (∃ err, env.userHomeDir s = .error err) →
      (privateKeyAuthMethod env p s).1 = []) ∧
    (∀ path err, (expandKeyfile env p s).1 = some path →
      env.readFile (expandKeyfile env p s).2 path = .error err →
      (privateKeyAuthMethod env p s).1 = []) ∧
    (∀ path data err, (expandKeyfile env p s).1 = some path →
      env.readFile (expandKeyfile env p s).2 path = .ok data →
      env.parsePrivateKey data = .error err →
      (privateKeyAuthMethod env p s).1 = []) ∧
    (∀ key, (privateKeyAuthMethod env p s).1 = [.publicKeys [key]] ↔
      ∃ path data, (expandKeyfile env p s).1 = some path ∧
        env.readFile (expandKeyfile env p s).2 path = .ok data ∧
        env.parsePrivateKey data = .ok key) := by
  have hhome : stringsHasPrefix p "~" = true → (∃ err, env.userHomeDir s = .error err) →
      (privateKeyAuthMethod env p s).1 = [] := fun h1 h2 => by
    rw [privateKeyAuthMethod_of_no_home env p s ((expandKeyfile_eq_none env p s).2 ⟨h1, h2⟩)]
  have hread : ∀ path err, (expandKeyfile env p s).1 = some path →
      env.readFile (expandKeyfile env p s).2 path = .error err →
      (privateKeyAuthMethod env p s).1 = [] := fun path err h hr => by
    rw [privateKeyAuthMethod_of_read_error env p s path err h hr]
  have hparse : ∀ path data err, (expandKeyfile env p s).1 = some path →
      env.readFile (expandKeyfile env p s).2 path = .ok data →
      env.parsePrivateKey data = .error err →
      (privateKeyAuthMethod env p s).1 = [] := fun path data err h hr hp => by
    rw [privateKeyAuthMethod_of_parse_error env p s path data err h hr hp]
  have hkey : ∀ path data key, (expandKeyfile env p s).1 = some path →
      env.readFile (expandKeyfile env p s).2 path = .ok data →
      env.parsePrivateKey data = .ok key →
      (privateKeyAuthMethod env p s).1 = [.publicKeys [key]] := fun path data key h hr hp => by
    rw [privateKeyAuthMethod_of_key env p s path data key h hr hp]
  have hcases : (privateKeyAuthMethod env p s).1 = [] ∨
      ∃ path data key, (expandKeyfile env p s).1 = some path ∧
        env.readFile (expandKeyfile env p s).2 path = .ok data ∧
        env.parsePrivateKey data = .ok key := by
    cases h : (expandKeyfile env p s).1 with
    | none => exact Or.inl (by rw [privateKeyAuthMethod_of_no_home env p s h])
    | some path =>
      cases hr : env.readFile (expandKeyfile env p s).2 path with
      | error err => exact Or.inl (hread path err h hr)
      | ok data =>
        cases hp : env.parsePrivateKey data with
        | error err => exact Or.inl (hparse path data err h hr hp)
        | ok key => exact Or.inr ⟨path, data, key, rfl, hr, hp⟩
  refine ⟨?_, hhome, hread, hparse, ?_⟩
  · rcases hcases with h | ⟨path, data, key, h, hr, hp⟩
    · exact Or.inl h
    · exact Or.inr ⟨key, hkey path data key h hr hp⟩
  · intro key
    constructor
    · intro hres
      rcases hcases with h | ⟨path, data, key2, h, hr, hp⟩
      · rw [h] at hres; simp at hres
      · rw [hkey path data key2 h hr hp] at hres
        simp only [List.cons.injEq, AuthMethod.publicKeys.injEq, and_true] at hres
        subst hres
        exact ⟨path, data, h, hr, hp⟩
    · rintro ⟨path, data, h, hr, hp⟩
      exact hkey path data key h hr hp

/-- C6 at concrete worlds: no home directory, an unreadable file, bytes that
do not parse, and a key that loads. -/
theorem privateKeyAuthMethod_result_witness :
    (privateKeyAuthMethod homeFailsEnv "~/.ssh/id_ed25519" State.init).1 = [] ∧
    (privateKeyAuthMethod readFailsEnv "/etc/keys/id" State.init).1 = [] ∧
    (privateKeyAuthMethod parseFailsEnv "/etc/keys/id" State.init).1 = [] ∧
    (privateKeyAuthMethod (goodEnv []) "/etc/keys/id" State.init).1
      = [.publicKeys [⟨[1, 2, 3]⟩]] :=
  ⟨(privateKeyAuthMethod_result homeFailsEnv "~/.ssh/id_ed25519" State.init).2.1 rfl
      ⟨"$HOME is not defined", rfl⟩,
   (privateKeyAuthMethod_result readFailsEnv "/etc/keys/id" State.init).2.2.1
      "/etc/keys/id" "open: no such file or directory" rfl rfl,
   (privateKeyAuthMethod_result parseFailsEnv "/etc/keys/id" State.init).2.2.2.1
      "/etc/keys/id" [1, 2, 3] "ssh: no key found" rfl rfl rfl,
   ((privateKeyAuthMethod_result (goodEnv []) "/etc/keys/id" State.init).2.2.2.2
      ⟨[1, 2, 3]⟩).2 ⟨"/etc/keys/id", [1, 2, 3], rfl, rfl, rfl⟩⟩

/-- A path that does not start with `~` is read as it is, with no lookup of
the home directory. -/
theorem expandKeyfile_plain (env : Env) (p : String) (s : State)
    (h : stringsHasPrefix p "~" = false) : expandKeyfile env p s = (some p, s) := by
  simp [expandKeyfile, h]

/-- Replacing `~` in text that has none changes nothing. -/
theorem replaceScan_tilde_absent (new rest : List Char) (h : '~' ∉ rest) :
    replaceScan ['~'] new 0 rest = rest := by
  induction rest with
  | nil => rfl
  | cons c cs ih =>
    have hc : c ≠ '~' := fun e => h (by simp [e])
    have hcs : '~' ∉ cs := fun e => h (by simp [e])
    have hne : ¬ ('~' = c) := fun e => hc e.symm
    simp [replaceScan, List.isPrefixOf, hne, ih hcs]

/-- When the only `~` of the path is the leading one, the path read is the
home directory followed by the rest of the path. -/
theorem expandKeyfile_leading_tilde_only (env : Env) (rest home : String) (s : State)
    (hhome : env.userHomeDir s = .ok home) (hrest : '~' ∉ rest.data) :
    (expandKeyfile env ("~" ++ rest) s).1 = some (home ++ rest) := by
  have hpre : stringsHasPrefix ("~" ++ rest) "~" = true := by
    simp [stringsHasPrefix, List.isPrefixOf]
  have hrep : stringsReplaceAll ("~" ++ rest) "~" home = home ++ rest := by
    apply String.ext
    simp [stringsReplaceAll, replaceScan, List.isPrefixOf,
      replaceScan_tilde_absent home.data rest.data hrest]
  simp [expandKeyfile, hpre, hhome, hrep]

/-- C5, the code at a path with a second `~`: with home directory `/home/ops`
the key path `~/logs~old/id_rsa` is read as
`/home/ops/logs/home/opsold/id_rsa`: the later `~` is replaced too, so the
path read is not the home directory followed by `/logs~old/id_rsa`. -/
theorem privateKeyAuthMethod_replaces_every_tilde :
    (privateKeyAuthMethod (goodEnv []) "~/logs~old/id_rsa" State.init).2.trace =
      [.userHomeDir, .readFile "/home/ops/logs/home/opsold/id_rsa",
        .parsePrivateKey [1, 2, 3]] ∧
    (goodEnv []).userHomeDir State.init = .ok "/home/ops" ∧
    (expandKeyfile (goodEnv []) "~/logs~old/id_rsa" State.init).1
      ≠ some ("/home/ops" ++ "/logs~old/id_rsa") := by
  refine ⟨?_, rfl, ?_⟩ <;> decide

/-- A key file that cannot be read and key bytes that cannot be parsed are
both logged: the last call made is `log.Println` of that error. -/
theorem privateKeyAuthMethod_logs_read_and_parse_errors (env : Env) (p : String) (s : State) :
    (∀ path err, (expandKeyfile env p s).1 = some path →
      env.readFile (expandKeyfile env p s).2 path = .error err →
      (privateKeyAuthMethod env p s).2.trace.getLast? = some (.logPrintln err)) ∧
    (∀ path data err, (expandKeyfile env p s).1 = some path →
      env.readFile (expandKeyfile env p s).2 path = .ok data →
      env.parsePrivateKey data = .error err →
      (privateKeyAuthMethod env p s).2.trace.getLast? = some (.logPrintln err)) := by
  constructor
  · intro path err h hr
    rw [privateKeyAuthMethod_of_read_error env p s path err h hr]
    simp
  · intro path data err h hr hp
    rw [privateKeyAuthMethod_of_parse_error env p s path data err h hr hp]
    simp

/-- C10, the code when the home directory cannot be resolved: for the key
path `~/.ssh/id_ed25519` the function returns no method and the only call it
made is `os.UserHomeDir`: nothing was logged. The unreadable file of the same
world is logged. -/
theorem privateKeyAuthMethod_home_failure_not_logged :
    (privateKeyAuthMethod homeFailsEnv "~/.ssh/id_ed25519" State.init).1 = [] ∧
    (privateKeyAuthMethod homeFailsEnv "~/.ssh/id_ed25519" State.init).2.trace
      = [.userHomeDir] ∧
    (privateKeyAuthMethod readFailsEnv "~/.ssh/id_ed25519" State.init).2.trace
      = [.userHomeDir, .readFile "/home/ops/.ssh/id_ed25519",
          .logPrintln "open: no such file or directory"] := by
  refine ⟨?_, ?_, ?_⟩ <;> decide

/-! ## Driver: `main` -/

/-- A string has byte length zero exactly when it is empty. -/
theorem len_eq_zero_iff (s : String) : len s = 0 ↔ s = "" := by
  constructor
  · intro h
    cases s with
    | mk d =>
      cases d with
      | nil => rfl
      | cons c cs =>
        have hc := Char.utf8Size_pos c
        simp only [len, String.utf8ByteSize, String.utf8ByteSize.go] at h
        omega
  · rintro rfl; rfl

/-- C1: when the host, logfile or localfile flag is empty, the calls `main`
makes are the usage line and `flag.PrintDefaults`, nothing else (no ssh_config
lookup, no key file read, no dial, no local write), and no local file
changes. -/
theorem main_usage_only (env : Env) (flags : Flags) (s : State)
    (h : flags.host = "" ∨ flags.logFile = "" ∨ flags.localFile = "") :
    (main env flags s).trace =
      s.trace ++ [.fmtPrintln ["Usage:", env.args0, "<args>"], .printDefaults] ∧
    (main env flags s).fs = s.fs := by
  have hcond : (len flags.host == 0 || len flags.logFile == 0 || len flags.localFile == 0)
      = true := by
    rcases h with h | h | h <;> simp [h, (len_eq_zero_iff "").2 rfl]
  unfold main
  rw [if_pos hcond]
  simp

/-- C1 at a concrete input: the host flag is missing. -/
theorem main_usage_only_witness :
    (main (goodEnv [])
        { host := "", logFile := "/tmp/x.log", localFile := "./out.log", clear := true }
        State.init).trace
      = [.fmtPrintln ["Usage:", "q2logfetch", "<args>"], .printDefaults] :=
  (main_usage_only (goodEnv [])
    { host := "", logFile := "/tmp/x.log", localFile := "./out.log", clear := true }
    State.init (Or.inl rfl)).1

/-- With the three required flags present `main` builds the connection, runs
the fetch step and then the clear step. -/
theorem main_of_required_flags (env : Env) (flags : Flags) (s : State)
    (hh : flags.host ≠ "") (hl : flags.logFile ≠ "") (hf : flags.localFile ≠ "") :
    main env flags s =
      clearStep env flags (buildConnection env flags s).1
        (fetchStep env flags (buildConnection env flags s).1 (buildConnection env flags s).2) := by
  have h1 : len flags.host ≠ 0 := fun h => hh ((len_eq_zero_iff _).1 h)
  have h2 : len flags.logFile ≠ 0 := fun h => hl ((len_eq_zero_iff _).1 h)
  have h3 : len flags.localFile ≠ 0 := fun h => hf ((len_eq_zero_iff _).1 h)
  simp [main, h1, h2, h3]

/-- The fetch step logs the error of a failed `fetchLog` and logs nothing otherwise. -/
theorem fetchStep_eq (env : Env) (flags : Flags) (conn : SSHConnection) (s0 s1 : State)
    (ferr : Option GoError)
    (hfetch : fetchLog env flags.logFile flags.localFile conn s0 = (ferr, s1)) :
    fetchStep env flags conn s0 = logIfError ferr s1 := by
  unfold fetchStep
  rw [hfetch]
  cases ferr <;> rfl

/-- The clear step when the flag is set: one `runCommand` of the clear
command, and a log line when it fails. -/
theorem clearStep_eq (env : Env) (flags : Flags) (conn : SSHConnection) (s : State)
    (hclear : flags.clear = true) :
    clearStep env flags conn s =
      logIfError (runCommand env ("sudo echo \"\" > " ++ flags.logFile) conn s).1.2
        (runCommand env ("sudo echo \"\" > " ++ flags.logFile) conn s).2 := by
  unfold clearStep
  rw [if_pos hclear]
  generalize runCommand env ("sudo echo \"\" > " ++ flags.logFile) conn s = rc
  obtain ⟨⟨o, _ | e⟩, s1⟩ := rc <;> rfl

/-- Logging keeps the calls made so far. -/
theorem logIfError_trace (err : Option GoError) (s : State) :
    ∃ t, (logIfError err s).trace = s.trace ++ t := by
  cases err with
  | none => exact ⟨[], by simp [logIfError]⟩
  | some e => exact ⟨[.logPrintln e], by simp [logIfError]⟩

/-- C4: with the three required flags present, `main` runs the fetch and logs
the error of a failed `fetchLog`; then, when the clear flag is set, it runs
one `runCommand` of exactly `sudo echo "" > ` followed by the logfile flag, on
the same connection, whether the fetch failed or not (the dial of that command
follows the fetch step in the trace), and logs that command's own error when
it fails; when the clear flag is not set the fetch step is the end of the
run. -/
theorem main_fetch_then_clear (env : Env) (flags : Flags) (s : State)
    (conn : SSHConnection) (s0 s1 : State) (ferr : Option GoError)
    (hh : flags.host ≠ "") (hl : flags.logFile ≠ "") (hf : flags.localFile ≠ "")
    (hconn : buildConnection env flags s = (conn, s0))
    (hfetch : fetchLog env flags.logFile flags.localFile conn s0 = (ferr, s1)) :
    (flags.clear = false → main env flags s = logIfError ferr s1) ∧
    (flags.clear = true →
      main env flags s =
        logIfError
          (runCommand env ("sudo echo \"\" > " ++ flags.logFile) conn
            (logIfError ferr s1)).1.2
          (runCommand env ("sudo echo \"\" > " ++ flags.logFile) conn
            (logIfError ferr s1)).2 ∧
      ∃ t, (main env flags s).trace = (logIfError ferr s1).trace ++ dialEvent conn :: t) := by
  have hstep : main env flags s = clearStep env flags conn (logIfError ferr s1) := by
    rw [main_of_required_flags env flags s hh hl hf, hconn]
    simp only []
    rw [fetchStep_eq env flags conn s0 s1 ferr hfetch]
  refine ⟨?_, ?_⟩
  · intro hclear
    rw [hstep]
    simp [clearStep, hclear]
  · intro hclear
    have hmain := hstep.trans (clearStep_eq env flags conn (logIfError ferr s1) hclear)
    refine ⟨hmain, ?_⟩
    obtain ⟨t, ht, -⟩ := runCommand_emitted env ("sudo echo \"\" > " ++ flags.logFile) conn
      (logIfError ferr s1)
    obtain ⟨u, hu⟩ := logIfError_trace
      (runCommand env ("sudo echo \"\" > " ++ flags.logFile) conn (logIfError ferr s1)).1.2
      (runCommand env ("sudo echo \"\" > " ++ flags.logFile) conn (logIfError ferr s1)).2
    rw [hmain, hu, ht]
    exact ⟨t ++ u, by simp⟩

/-- The flags of the examples: all three required flags, and the clear flag. -/
def demoFlags (clear : Bool) : Flags :=
  { host := "prod", logFile := "/tmp/x.log", localFile := "./out.log", clear := clear }

/-- The connection `main` builds in the good world for the alias `prod`. -/
def prodConn : SSHConnection :=
  { Host := "10.0.0.5", Port := "22",
    Config := { User := "ops", Auth := [.publicKeys [⟨[1, 2, 3]⟩]],
                HostKeyCallback := .insecureIgnoreHostKey } }

/-- The calls `main` makes in the good world before the fetch. -/
def prodSetup : List Event :=
  [.sshConfigGet "prod" "user", .sshConfigGet "prod" "identityfile", .userHomeDir,
    .readFile "/home/ops/.ssh/id_ed25519", .parsePrivateKey [1, 2, 3],
    .sshConfigGet "prod" "hostname", .sshConfigGet "prod" "port"]

/-- C4 at a concrete world, the host unreachable and the clear flag set: the
fetch fails and is logged, the clear command is still attempted, and its own
failure is logged. With the flag not set the run ends after the first log
line. -/
theorem main_fetch_then_clear_witness :
    (main dialFailsEnv (demoFlags true) State.init).trace =
      prodSetup ++
        [dialEvent prodConn, .logPrintln "dial tcp 10.0.0.5:22: connection refused",
         dialEvent prodConn, .logPrintln "dial tcp 10.0.0.5:22: connection refused"] ∧
    (main dialFailsEnv (demoFlags false) State.init).trace =
      prodSetup ++
        [dialEvent prodConn, .logPrintln "dial tcp 10.0.0.5:22: connection refused"] := by
  exact ⟨congrArg State.trace
      ((main_fetch_then_clear dialFailsEnv (demoFlags true) State.init
        prodConn ⟨prodSetup, fun _ => none⟩
        ⟨prodSetup ++ [dialEvent prodConn], fun _ => none⟩
        (some "dial tcp 10.0.0.5:22: connection refused")
        (by decide) (by decide) (by decide) rfl rfl).2 rfl).1,
    congrArg State.trace
      ((main_fetch_then_clear dialFailsEnv (demoFlags false) State.init
        prodConn ⟨prodSetup, fun _ => none⟩
        ⟨prodSetup ++ [dialEvent prodConn], fun _ => none⟩
        (some "dial tcp 10.0.0.5:22: connection refused")
        (by decide) (by decide) (by decide) rfl rfl).1 rfl)⟩

/-- The run of the example in the good world with the clear flag set: the
fetch writes the local file and the clear command runs after it. -/
theorem main_clear_example :
    (main (goodEnv []) (demoFlags true) State.init).trace =
      prodSetup ++
        [dialEvent prodConn, .newSession, .stdoutPipe, .start "sudo truncate -s 0 /tmp/x.log",
         .readFrom, .sessionClose, .writeFile "./out.log" [] 420,
         dialEvent prodConn, .newSession, .stdoutPipe, .start "sudo echo \"\" > /tmp/x.log",
         .readFrom, .sessionClose] := by
  decide

end Q2LogFetch
